import Mathlib

/-!
Verification of the AppFlowy `flowy-editor` file manager
(`rust-lib/flowy-editor/src/services/file_manager/manager.rs`).

The manager keeps two maps: `open_files : path → file id` and
`file_info : file id → metadata`, and exposes `open`, `save`, `close`,
`check_file`.  Byte-level I/O (`try_load_file`, `try_save`,
`get_modified_time`, `Path::exists`) is performed by external primitives
that are not part of this fragment; they are modelled here as an oracle
`FS` passed to each operation.  Save operations additionally return the
list of invocations of the external write primitive (`try_save`), so that
"no write was performed" is a statement about the returned trace.
-/

namespace AppFlowy

/-- Filesystem paths (`std::path::PathBuf`), modelled as strings. -/
abbrev FilePath := String

/-- Logical document identifiers (`FileId`): opaque, cloneable, hashable
values; modelled as strings. -/
abbrev FileId := String

/-- Filesystem modification timestamps, modelled as naturals. -/
abbrev Timestamp := Nat

/-- Payload of an `io::Error`, modelled as a code. -/
abbrev IoError := Nat

/-- `CharacterEncoding`: fixed to a single supported encoding in this
core (`Utf8`); the definition is not in this fragment, only variant
`Utf8` is referenced by `manager.rs`. -/
inductive CharacterEncoding where
  | Utf8 : CharacterEncoding
deriving DecidableEq, Repr

/-- `FileInfo`: per-document metadata (field usage visible in
`manager.rs`: `encoding`, `path`, `modified_time`, `has_changed`). -/
structure FileInfo where
  encoding : CharacterEncoding
  path : FilePath
  modified_time : Timestamp
  has_changed : Bool
deriving DecidableEq, Repr

/-- `FileError`: the two variants constructed by `manager.rs`:
`Io(error, path)` and `HasChanged(path)`. -/
inductive FileError where
  | Io : IoError → FilePath → FileError
  | HasChanged : FilePath → FileError
deriving DecidableEq, Repr

/-- Oracle for the external filesystem primitives consumed by the
manager.  `try_load_file` and `try_save` are the external load/save
collaborators; `get_modified_time` is the mtime lookup.  Within a single
`save` call the oracle's `get_modified_time` answers as observed after
the write (the code re-reads the mtime right after `try_save`). -/
structure FS where
  pathExists : FilePath → Bool
  try_load_file : FilePath → Except FileError (String × FileInfo)
  try_save : FilePath → String → CharacterEncoding → Option FileInfo → Except IoError Unit
  get_modified_time : FilePath → Timestamp

/-- A recorded invocation of the external write primitive `try_save`:
target path, text written, encoding used. -/
abbrev WriteCall := FilePath × String × CharacterEncoding

/-- Pointwise update of a map modelled as a function to `Option`.
`upd m k (some v)` is `HashMap::insert`, `upd m k none` is
`HashMap::remove`. -/
def upd {α β : Type} [DecidableEq α] (m : α → Option β) (k : α) (v : Option β) :
    α → Option β :=
  fun x => if x = k then v else m x

@[simp]
theorem upd_same {α β : Type} [DecidableEq α] (m : α → Option β) (k : α) (v : Option β) :
    upd m k v k = v := by
  simp [upd]

theorem upd_ne {α β : Type} [DecidableEq α] (m : α → Option β) (k : α) (v : Option β)
    (x : α) (h : x ≠ k) : upd m k v x = m x := by
  simp [upd, h]

/-- `FileManager` state: the two registry maps of `manager.rs`
(the `config` field only feeds `make_file_path` and is kept apart). -/
structure FileManager where
  open_files : FilePath → Option FileId
  file_info : FileId → Option FileInfo

/-- `FileManager::new`: both maps empty. -/
def FileManager.empty : FileManager :=
  { open_files := fun _ => none, file_info := fun _ => none }

/-- `FileManagerConfig { doc_dir }`. -/
structure FileManagerConfig where
  doc_dir : String

/-- `FileManagerConfig::new(root)`: `doc_dir = root + "/doc"`. -/
def FileManagerConfig.new (root : String) : FileManagerConfig :=
  { doc_dir := root ++ "/doc" }

/-- `FileManager::make_file_path(id)`. -/
def make_file_path (config : FileManagerConfig) (id : String) : FilePath :=
  config.doc_dir ++ "/" ++ id

/-- `FileManager::get_info`. -/
def FileManager.get_info (fm : FileManager) (id : FileId) : Option FileInfo :=
  fm.file_info id

/-- `FileManager::get_file_id`. -/
def FileManager.get_file_id (fm : FileManager) (path : FilePath) : Option FileId :=
  fm.open_files path

/-- `FileManager::open`: missing path returns `Ok("")` with no state
change; otherwise load the file and insert into both maps. -/
def FileManager.«open» (fm : FileManager) (fs : FS) (path : FilePath) (id : FileId) :
    Except FileError String × FileManager :=
  if fs.pathExists path = false then
    (Except.ok "", fm)
  else
    match fs.try_load_file path with
    | Except.error e => (Except.error e, fm)
    | Except.ok (s, info) =>
        (Except.ok s,
          { open_files := upd fm.open_files path (some id),
            file_info := upd fm.file_info id (some info) })

/-- `FileManager::save_new`: write with the default `Utf8` encoding,
then record fresh metadata (mtime re-read from disk, `has_changed`
false) and register both maps.  On write failure the state is
unchanged. -/
def FileManager.save_new (fm : FileManager) (fs : FS) (path : FilePath) (text : String)
    (id : FileId) : Except FileError Unit × FileManager × List WriteCall :=
  match fs.try_save path text CharacterEncoding.Utf8 (fm.get_info id) with
  | Except.error e =>
      (Except.error (FileError.Io e path), fm, [(path, text, CharacterEncoding.Utf8)])
  | Except.ok _ =>
      let info : FileInfo :=
        { encoding := CharacterEncoding.Utf8, path := path,
          modified_time := fs.get_modified_time path, has_changed := false }
      (Except.ok (),
        { open_files := upd fm.open_files path (some id),
          file_info := upd fm.file_info id (some info) },
        [(path, text, CharacterEncoding.Utf8)])

/-- `FileManager::save_existing`.  The Rust code indexes
`self.file_info[id]` (a panic when absent); `save` only calls it when
the id is present, so the `none` branch below is unreachable from
`save` and returns the state unchanged. -/
def FileManager.save_existing (fm : FileManager) (fs : FS) (path : FilePath) (text : String)
    (id : FileId) : Except FileError Unit × FileManager × List WriteCall :=
  match fm.file_info id with
  | none => (Except.ok (), fm, [])
  | some info =>
      if info.path ≠ path then
        match fm.save_new fs path text id with
        | (Except.ok _, fm1, w) =>
            (Except.ok (), { fm1 with open_files := upd fm1.open_files info.path none }, w)
        | (Except.error e, fm1, w) => (Except.error e, fm1, w)
      else if info.has_changed then
        (Except.error (FileError.HasChanged path), fm, [])
      else
        match fs.try_save path text info.encoding (fm.get_info id) with
        | Except.error e =>
            (Except.error (FileError.Io e path), fm, [(path, text, info.encoding)])
        | Except.ok _ =>
            let info1 := { info with modified_time := fs.get_modified_time path }
            (Except.ok (),
              { fm with file_info := upd fm.file_info id (some info1) },
              [(path, text, info.encoding)])

/-- `FileManager::save`: dispatch on whether the identifier already has
metadata. -/
def FileManager.save (fm : FileManager) (fs : FS) (path : FilePath) (text : String)
    (id : FileId) : Except FileError Unit × FileManager × List WriteCall :=
  if (fm.file_info id).isSome then
    fm.save_existing fs path text id
  else
    fm.save_new fs path text id

/-- `FileManager::close`: remove the metadata and, when it existed, the
`open_files` entry for its recorded path. -/
def FileManager.close (fm : FileManager) (id : FileId) : FileManager :=
  match fm.file_info id with
  | some info =>
      { open_files := upd fm.open_files info.path none,
        file_info := upd fm.file_info id none }
  | none => fm

/-- `FileManager::check_file`: compare the current mtime of `path`
against the recorded `modified_time` of `id`; on mismatch set
`has_changed` and return it, otherwise return the stored flag; unknown
id returns `false` with no change. -/
def FileManager.check_file (fm : FileManager) (fs : FS) (path : FilePath) (id : FileId) :
    Bool × FileManager :=
  match fm.file_info id with
  | some info =>
      if fs.get_modified_time path ≠ info.modified_time then
        let info1 := { info with has_changed := true }
        (true, { fm with file_info := upd fm.file_info id (some info1) })
      else
        (info.has_changed, fm)
  | none => (false, fm)

/-- Modelled from the spec: well-formedness of the external load
primitive `try_load_file` (its code is not in this fragment).  The spec
says `open` "delegates to the external load primitive to read content
and derive initial metadata (encoding, current modification time,
`has_changed = false`)" and registers the maps "under the given
path/identifier": a successful load for `p` yields metadata recording
path `p` with `has_changed = false`. -/
def LoadWF (fs : FS) : Prop :=
  ∀ p s info, fs.try_load_file p = Except.ok (s, info) →
    info.path = p ∧ info.has_changed = false

/-- The registry invariant of the spec: every metadata record's path
maps back to its identifier in `open_files`, and every `open_files`
entry points to an identifier whose metadata records that path. -/
def Inv (fm : FileManager) : Prop :=
  (∀ id info, fm.file_info id = some info → fm.open_files info.path = some id) ∧
  (∀ p id, fm.open_files p = some id → ∃ info, fm.file_info id = some info ∧ info.path = p)

/-- A concrete oracle for witnesses: every path exists, loads succeed
with empty text and clean metadata at the queried path, writes succeed,
mtime is constantly `0`. -/
def fs0 : FS :=
  { pathExists := fun _ => true,
    try_load_file := fun p =>
      Except.ok ("", { encoding := CharacterEncoding.Utf8, path := p,
                       modified_time := 0, has_changed := false }),
    try_save := fun _ _ _ _ => Except.ok (),
    get_modified_time := fun _ => 0 }

theorem fs0_loadWF : LoadWF fs0 := by
  intro p s info h
  simp only [fs0] at h
  cases h
  exact ⟨rfl, rfl⟩

/-! ### Characterization lemmas: one equation per branch of each operation -/

/-- The fresh metadata record written by `save_new`. -/
def freshInfo (fs : FS) (path : FilePath) : FileInfo :=
  { encoding := CharacterEncoding.Utf8, path := path,
    modified_time := fs.get_modified_time path, has_changed := false }

theorem open_not_exists (fm : FileManager) (fs : FS) (path : FilePath) (id : FileId)
    (h : fs.pathExists path = false) :
    fm.«open» fs path id = (Except.ok "", fm) := by
  simp [FileManager.«open», h]

theorem open_load_err (fm : FileManager) (fs : FS) (path : FilePath) (id : FileId)
    (e : FileError) (hex : fs.pathExists path = true)
    (h : fs.try_load_file path = Except.error e) :
    fm.«open» fs path id = (Except.error e, fm) := by
  simp [FileManager.«open», hex, h]

theorem open_load_ok (fm : FileManager) (fs : FS) (path : FilePath) (id : FileId)
    (s : String) (info : FileInfo) (hex : fs.pathExists path = true)
    (h : fs.try_load_file path = Except.ok (s, info)) :
    fm.«open» fs path id =
      (Except.ok s,
        { open_files := upd fm.open_files path (some id),
          file_info := upd fm.file_info id (some info) }) := by
  simp [FileManager.«open», hex, h]

theorem save_new_err (fm : FileManager) (fs : FS) (path : FilePath) (text : String)
    (id : FileId) (e : IoError)
    (h : fs.try_save path text CharacterEncoding.Utf8 (fm.file_info id) = Except.error e) :
    fm.save_new fs path text id =
      (Except.error (FileError.Io e path), fm, [(path, text, CharacterEncoding.Utf8)]) := by
  simp [FileManager.save_new, FileManager.get_info, h]

theorem save_new_ok (fm : FileManager) (fs : FS) (path : FilePath) (text : String)
    (id : FileId)
    (h : fs.try_save path text CharacterEncoding.Utf8 (fm.file_info id) = Except.ok ()) :
    fm.save_new fs path text id =
      (Except.ok (),
        { open_files := upd fm.open_files path (some id),
          file_info := upd fm.file_info id (some (freshInfo fs path)) },
        [(path, text, CharacterEncoding.Utf8)]) := by
  simp [FileManager.save_new, FileManager.get_info, h, freshInfo]

theorem save_untracked (fm : FileManager) (fs : FS) (path : FilePath) (text : String)
    (id : FileId) (h : fm.file_info id = none) :
    fm.save fs path text id = fm.save_new fs path text id := by
  simp [FileManager.save, h]

theorem save_tracked (fm : FileManager) (fs : FS) (path : FilePath) (text : String)
    (id : FileId) (info : FileInfo) (h : fm.file_info id = some info) :
    fm.save fs path text id = fm.save_existing fs path text id := by
  simp [FileManager.save, h]

theorem save_existing_as_ok (fm : FileManager) (fs : FS) (path : FilePath) (text : String)
    (id : FileId) (info : FileInfo)
    (h : fm.file_info id = some info) (hne : info.path ≠ path)
    (hw : fs.try_save path text CharacterEncoding.Utf8 (some info) = Except.ok ()) :
    fm.save_existing fs path text id =
      (Except.ok (),
        { open_files := upd (upd fm.open_files path (some id)) info.path none,
          file_info := upd fm.file_info id (some (freshInfo fs path)) },
        [(path, text, CharacterEncoding.Utf8)]) := by
  have hw2 : fs.try_save path text CharacterEncoding.Utf8 (fm.file_info id) = Except.ok () := by
    rw [h]; exact hw
  simp [FileManager.save_existing, h, hne, save_new_ok fm fs path text id hw2]

theorem save_existing_as_err (fm : FileManager) (fs : FS) (path : FilePath) (text : String)
    (id : FileId) (info : FileInfo) (e : IoError)
    (h : fm.file_info id = some info) (hne : info.path ≠ path)
    (hw : fs.try_save path text CharacterEncoding.Utf8 (some info) = Except.error e) :
    fm.save_existing fs path text id =
      (Except.error (FileError.Io e path), fm, [(path, text, CharacterEncoding.Utf8)]) := by
  have hw2 : fs.try_save path text CharacterEncoding.Utf8 (fm.file_info id) =
      Except.error e := by
    rw [h]; exact hw
  simp [FileManager.save_existing, h, hne, save_new_err fm fs path text id e hw2]

theorem save_existing_dirty (fm : FileManager) (fs : FS) (path : FilePath) (text : String)
    (id : FileId) (info : FileInfo)
    (h : fm.file_info id = some info) (hpe : info.path = path)
    (hd : info.has_changed = true) :
    fm.save_existing fs path text id = (Except.error (FileError.HasChanged path), fm, []) := by
  simp [FileManager.save_existing, h, hpe, hd]

theorem save_existing_clean_ok (fm : FileManager) (fs : FS) (path : FilePath) (text : String)
    (id : FileId) (info : FileInfo)
    (h : fm.file_info id = some info) (hpe : info.path = path)
    (hc : info.has_changed = false)
    (hw : fs.try_save path text info.encoding (some info) = Except.ok ()) :
    fm.save_existing fs path text id =
      (Except.ok (),
        { fm with file_info := upd fm.file_info id (some { info with modified_time := fs.get_modified_time path }) },
        [(path, text, info.encoding)]) := by
  simp [FileManager.save_existing, FileManager.get_info, h, hpe, hc, hw]

theorem save_existing_clean_err (fm : FileManager) (fs : FS) (path : FilePath) (text : String)
    (id : FileId) (info : FileInfo) (e : IoError)
    (h : fm.file_info id = some info) (hpe : info.path = path)
    (hc : info.has_changed = false)
    (hw : fs.try_save path text info.encoding (some info) = Except.error e) :
    fm.save_existing fs path text id =
      (Except.error (FileError.Io e path), fm, [(path, text, info.encoding)]) := by
  simp [FileManager.save_existing, FileManager.get_info, h, hpe, hc, hw]

theorem close_none (fm : FileManager) (id : FileId) (h : fm.file_info id = none) :
    fm.close id = fm := by
  simp [FileManager.close, h]

theorem close_some (fm : FileManager) (id : FileId) (info : FileInfo)
    (h : fm.file_info id = some info) :
    fm.close id =
      { open_files := upd fm.open_files info.path none,
        file_info := upd fm.file_info id none } := by
  simp [FileManager.close, h]

theorem close_file_info_self (fm : FileManager) (id : FileId) :
    (fm.close id).file_info id = none := by
  cases h : fm.file_info id with
  | none => rw [close_none fm id h]; exact h
  | some info => rw [close_some fm id info h]; simp [upd]

theorem check_none (fm : FileManager) (fs : FS) (path : FilePath) (id : FileId)
    (h : fm.file_info id = none) :
    fm.check_file fs path id = (false, fm) := by
  simp [FileManager.check_file, h]

theorem check_diff (fm : FileManager) (fs : FS) (path : FilePath) (id : FileId)
    (info : FileInfo) (h : fm.file_info id = some info)
    (hne : fs.get_modified_time path ≠ info.modified_time) :
    fm.check_file fs path id =
      (true, { fm with file_info := upd fm.file_info id (some { info with has_changed := true }) }) := by
  simp [FileManager.check_file, h, hne]

theorem check_same (fm : FileManager) (fs : FS) (path : FilePath) (id : FileId)
    (info : FileInfo) (h : fm.file_info id = some info)
    (heq : fs.get_modified_time path = info.modified_time) :
    fm.check_file fs path id = (info.has_changed, fm) := by
  simp [FileManager.check_file, h, heq]

/-! ### Concrete fixtures for witnesses and counterexamples -/

/-- Metadata for a dirty document recorded at path `p`. -/
def infoDirty : FileInfo :=
  { encoding := CharacterEncoding.Utf8, path := "p", modified_time := 0, has_changed := true }

/-- A manager tracking identifier `a` at path `p`, dirty. -/
def fmDirty : FileManager :=
  { open_files := upd FileManager.empty.open_files "p" (some "a"),
    file_info := upd FileManager.empty.file_info "a" (some infoDirty) }

/-- Metadata for a clean document recorded at path `p`. -/
def infoClean : FileInfo :=
  { encoding := CharacterEncoding.Utf8, path := "p", modified_time := 0, has_changed := false }

/-- A manager tracking identifier `a` at path `p`, clean. -/
def fmClean : FileManager :=
  { open_files := upd FileManager.empty.open_files "p" (some "a"),
    file_info := upd FileManager.empty.file_info "a" (some infoClean) }

/-- Oracle whose write primitive always fails with code `7`. -/
def fsFail : FS :=
  { pathExists := fun _ => true,
    try_load_file := fun p =>
      Except.ok ("", { encoding := CharacterEncoding.Utf8, path := p,
                       modified_time := 0, has_changed := false }),
    try_save := fun _ _ _ _ => Except.error 7,
    get_modified_time := fun _ => 0 }

/-- Oracle on which no path exists. -/
def fsNoFile : FS :=
  { pathExists := fun _ => false,
    try_load_file := fun p =>
      Except.ok ("", { encoding := CharacterEncoding.Utf8, path := p,
                       modified_time := 0, has_changed := false }),
    try_save := fun _ _ _ _ => Except.ok (),
    get_modified_time := fun _ => 0 }

/-! ### The claims -/

/-- C1: if identifier `id` has metadata whose recorded path equals the
argument path and whose `has_changed` flag is true, then
`save(path, text, id)` returns the conflict failure `HasChanged path`,
invokes the external write primitive zero times (empty write trace), and
leaves the whole manager state unchanged. -/
theorem c1_save_dirty_same_path_refused (fs : FS) (fm : FileManager) (path : FilePath)
    (text : String) (id : FileId) (info : FileInfo)
    (hinfo : fm.file_info id = some info) (hpath : info.path = path)
    (hdirty : info.has_changed = true) :
    fm.save fs path text id = (Except.error (FileError.HasChanged path), fm, []) := by
  rw [save_tracked fm fs path text id info hinfo,
      save_existing_dirty fm fs path text id info hinfo hpath hdirty]

theorem c1_witness :
    fmDirty.save fs0 "p" "t" "a" = (Except.error (FileError.HasChanged "p"), fmDirty, []) :=
  c1_save_dirty_same_path_refused fs0 fmDirty "p" "t" "a" infoDirty (by decide) (by decide)
    (by decide)

/-- C3: a save-as (tracked identifier, target path different from the
recorded one) on which the external write primitive fails returns the
I/O failure carrying the new path, and the manager state is exactly the
state before the call: no entry for the new path, old path mapping and
metadata untouched. -/
theorem c3_save_as_write_failure_atomic (fs : FS) (fm : FileManager) (pnew : FilePath)
    (text : String) (id : FileId) (info : FileInfo) (e : IoError)
    (hinfo : fm.file_info id = some info) (hne : info.path ≠ pnew)
    (hfail : fs.try_save pnew text CharacterEncoding.Utf8 (some info) = Except.error e) :
    fm.save fs pnew text id =
      (Except.error (FileError.Io e pnew), fm, [(pnew, text, CharacterEncoding.Utf8)]) := by
  rw [save_tracked fm fs pnew text id info hinfo,
      save_existing_as_err fm fs pnew text id info e hinfo hne hfail]

theorem c3_witness :
    fmClean.save fsFail "q" "t" "a" =
      (Except.error (FileError.Io 7 "q"), fmClean, [("q", "t", CharacterEncoding.Utf8)]) :=
  c3_save_as_write_failure_atomic fsFail fmClean "q" "t" "a" infoClean 7 (by decide)
    (by decide) rfl

/-- C4: when the target path does not exist on the filesystem,
`open(path, id)` returns `Ok ""` and leaves the manager state exactly
unchanged, whatever the rest of the state is. -/
theorem c4_open_missing_path (fs : FS) (fm : FileManager) (path : FilePath) (id : FileId)
    (h : fs.pathExists path = false) :
    fm.«open» fs path id = (Except.ok "", fm) :=
  open_not_exists fm fs path id h

theorem c4_witness :
    fmDirty.«open» fsNoFile "q" "b" = (Except.ok "", fmDirty) :=
  c4_open_missing_path fsNoFile fmDirty "q" "b" rfl

/-- C9: `close` is idempotent and total: closing twice equals closing
once, closing an untracked identifier changes nothing (and is not a
failure: `close` returns no error at all), and after any `close id` the
identifier has no metadata. -/
theorem c9_close_idempotent_total (fm : FileManager) (id : FileId) :
    (fm.close id).close id = fm.close id ∧
    (fm.file_info id = none → fm.close id = fm) ∧
    (fm.close id).file_info id = none :=
  ⟨close_none (fm.close id) id (close_file_info_self fm id),
   fun h => close_none fm id h,
   close_file_info_self fm id⟩

theorem c9_witness :
    ((fmDirty.close "a").close "a" = fmDirty.close "a" ∧
     FileManager.empty.close "a" = FileManager.empty ∧
     (fmDirty.close "a").file_info "a" = none) :=
  ⟨(c9_close_idempotent_total fmDirty "a").1,
   (c9_close_idempotent_total FileManager.empty "a").2.1 rfl,
   (c9_close_idempotent_total fmDirty "a").2.2⟩

/-- C7: a successful save-as (tracked identifier `id` recorded at
`info.path`, saved at a different path `pnew`, write succeeds) returns
success; afterwards the path→identifier lookup on the old path returns
nothing, the lookup on `pnew` returns `id`, and the metadata of `id`
records path `pnew`, `has_changed = false` and the modification time
re-read from disk after the write (the oracle answers post-write). -/
theorem c7_save_as_success_postcondition (fs : FS) (fm : FileManager) (pnew : FilePath)
    (text : String) (id : FileId) (info : FileInfo)
    (hinfo : fm.file_info id = some info) (hne : info.path ≠ pnew)
    (hw : fs.try_save pnew text CharacterEncoding.Utf8 (some info) = Except.ok ()) :
    (fm.save fs pnew text id).1 = Except.ok () ∧
    (fm.save fs pnew text id).2.1.get_file_id info.path = none ∧
    (fm.save fs pnew text id).2.1.get_file_id pnew = some id ∧
    (fm.save fs pnew text id).2.1.file_info id =
      some { encoding := CharacterEncoding.Utf8, path := pnew,
             modified_time := fs.get_modified_time pnew, has_changed := false } := by
  have hne2 : pnew ≠ info.path := Ne.symm hne
  rw [save_tracked fm fs pnew text id info hinfo,
      save_existing_as_ok fm fs pnew text id info hinfo hne hw]
  refine ⟨rfl, ?_, ?_, ?_⟩
  · simp [FileManager.get_file_id, upd]
  · simp [FileManager.get_file_id, upd, hne2]
  · simp [upd, freshInfo]

theorem c7_witness :
    (fmClean.save fs0 "q" "t" "a").1 = Except.ok () ∧
    (fmClean.save fs0 "q" "t" "a").2.1.get_file_id infoClean.path = none ∧
    (fmClean.save fs0 "q" "t" "a").2.1.get_file_id "q" = some "a" ∧
    (fmClean.save fs0 "q" "t" "a").2.1.file_info "a" =
      some { encoding := CharacterEncoding.Utf8, path := "q",
             modified_time := fs0.get_modified_time "q", has_changed := false } :=
  c7_save_as_success_postcondition fs0 fmClean "q" "t" "a" infoClean (by decide) (by decide)
    rfl

/-- C8: a successful save for a tracked identifier at its recorded path
with `has_changed = false` performs exactly one write, with the
previously recorded encoding; it updates only the `modified_time` field
of the identifier's metadata (encoding, path, `has_changed` are kept),
leaves the path→identifier map unchanged, and leaves every other
identifier's metadata entry unchanged. -/
theorem c8_save_same_path_clean_frame (fs : FS) (fm : FileManager) (path : FilePath)
    (text : String) (id : FileId) (info : FileInfo)
    (hinfo : fm.file_info id = some info) (hpath : info.path = path)
    (hclean : info.has_changed = false)
    (hw : fs.try_save path text info.encoding (some info) = Except.ok ()) :
    (fm.save fs path text id).1 = Except.ok () ∧
    (fm.save fs path text id).2.2 = [(path, text, info.encoding)] ∧
    (fm.save fs path text id).2.1.file_info id =
      some { info with modified_time := fs.get_modified_time path } ∧
    (fm.save fs path text id).2.1.open_files = fm.open_files ∧
    (∀ id1, id1 ≠ id → (fm.save fs path text id).2.1.file_info id1 = fm.file_info id1) := by
  rw [save_tracked fm fs path text id info hinfo,
      save_existing_clean_ok fm fs path text id info hinfo hpath hclean hw]
  refine ⟨rfl, rfl, ?_, rfl, ?_⟩
  · simp [upd]
  · intro id1 h1
    simp [upd, h1]

theorem c8_witness :
    (fmClean.save fs0 "p" "t" "a").1 = Except.ok () ∧
    (fmClean.save fs0 "p" "t" "a").2.2 = [("p", "t", infoClean.encoding)] :=
  ⟨(c8_save_same_path_clean_frame fs0 fmClean "p" "t" "a" infoClean (by decide) (by decide)
      (by decide) rfl).1,
   (c8_save_same_path_clean_frame fs0 fmClean "p" "t" "a" infoClean (by decide) (by decide)
      (by decide) rfl).2.1⟩

/-- The metadata record that `fs0.try_load_file` reports for path `q`. -/
def infoQ : FileInfo :=
  { encoding := CharacterEncoding.Utf8, path := "q", modified_time := 0, has_changed := false }

/-- C10: a successful `open` of a tracked identifier at a new existing
path replaces the identifier's metadata but does not remove the old
path→identifier entry: the old path still resolves to the identifier,
and a subsequent `close` removes only the new path's entry, leaving the
stale old-path mapping behind (with the identifier's metadata gone). -/
theorem c10_open_new_path_stale_entry (fs : FS) (fm : FileManager) (pold pnew : FilePath)
    (id : FileId) (info0 : FileInfo) (s : String) (info : FileInfo)
    (hinfo : fm.file_info id = some info0) (hpold : info0.path = pold)
    (hmap : fm.open_files pold = some id)
    (hne : pnew ≠ pold)
    (hex : fs.pathExists pnew = true)
    (hload : fs.try_load_file pnew = Except.ok (s, info))
    (hip : info.path = pnew) :
    (fm.«open» fs pnew id).1 = Except.ok s ∧
    (fm.«open» fs pnew id).2.file_info id = some info ∧
    (fm.«open» fs pnew id).2.get_file_id pold = some id ∧
    (fm.«open» fs pnew id).2.get_file_id pnew = some id ∧
    ((fm.«open» fs pnew id).2.close id).get_file_id pnew = none ∧
    ((fm.«open» fs pnew id).2.close id).get_file_id pold = some id ∧
    ((fm.«open» fs pnew id).2.close id).file_info id = none := by
  have hps : pold ≠ pnew := Ne.symm hne
  rw [open_load_ok fm fs pnew id s info hex hload]
  refine ⟨rfl, by simp [upd], ?_, by simp [FileManager.get_file_id, upd], ?_, ?_, ?_⟩
  · simp [FileManager.get_file_id, upd, hps, hmap]
  · simp [FileManager.close, FileManager.get_file_id, upd, hip]
  · simp [FileManager.close, FileManager.get_file_id, upd, hip, hps, hmap]
  · simp [FileManager.close, upd]

theorem c10_witness :
    ((fmClean.«open» fs0 "q" "a").2.close "a").get_file_id "p" = some "a" :=
  (c10_open_new_path_stale_entry fs0 fmClean "p" "q" "a" infoClean "" infoQ (by decide)
      (by decide) (by decide) (by decide) rfl rfl (by decide)).2.2.2.2.2.1

/-! ### Helper lemmas for dirty-flag provenance and save postconditions -/

theorem dirty_of_upd {m : FileId → Option FileInfo} {id : FileId} {v : Option FileInfo}
    (hv : ∀ info, v = some info → info.has_changed = false) :
    ∀ id1 info1, upd m id v id1 = some info1 → info1.has_changed = true →
      ∃ info0, m id1 = some info0 ∧ info0.has_changed = true := by
  intro id1 info1 h1 hd
  by_cases hid : id1 = id
  · subst hid
    rw [upd_same] at h1
    rw [hv info1 h1] at hd
    cases hd
  · rw [upd_ne m id v id1 hid] at h1
    exact ⟨info1, h1, hd⟩

theorem open_no_new_dirty (fs : FS) (fm : FileManager) (path : FilePath) (id : FileId)
    (hwf : LoadWF fs) :
    ∀ id1 info1, (fm.«open» fs path id).2.file_info id1 = some info1 →
      info1.has_changed = true →
      ∃ info0, fm.file_info id1 = some info0 ∧ info0.has_changed = true := by
  intro id1 info1 h1 hd
  cases hex : fs.pathExists path with
  | false =>
    rw [open_not_exists fm fs path id hex] at h1
    exact ⟨info1, h1, hd⟩
  | true =>
    cases hl : fs.try_load_file path with
    | error e =>
      rw [open_load_err fm fs path id e hex hl] at h1
      exact ⟨info1, h1, hd⟩
    | ok pr =>
      obtain ⟨s, info⟩ := pr
      rw [open_load_ok fm fs path id s info hex hl] at h1
      refine dirty_of_upd (fun i hi => ?_) id1 info1 h1 hd
      injection hi with h2
      subst h2
      exact (hwf path s info hl).2

theorem close_no_new_dirty (fm : FileManager) (id : FileId) :
    ∀ id1 info1, (fm.close id).file_info id1 = some info1 →
      info1.has_changed = true →
      ∃ info0, fm.file_info id1 = some info0 ∧ info0.has_changed = true := by
  intro id1 info1 h1 hd
  cases hfi : fm.file_info id with
  | none =>
    rw [close_none fm id hfi] at h1
    exact ⟨info1, h1, hd⟩
  | some info0 =>
    rw [close_some fm id info0 hfi] at h1
    exact dirty_of_upd (fun i hi => by simp at hi) id1 info1 h1 hd

theorem save_no_new_dirty (fs : FS) (fm : FileManager) (path : FilePath) (text : String)
    (id : FileId) :
    ∀ id1 info1, (fm.save fs path text id).2.1.file_info id1 = some info1 →
      info1.has_changed = true →
      ∃ info0, fm.file_info id1 = some info0 ∧ info0.has_changed = true := by
  intro id1 info1 h1 hd
  cases hfi : fm.file_info id with
  | none =>
    rw [save_untracked fm fs path text id hfi] at h1
    cases hw : fs.try_save path text CharacterEncoding.Utf8 (fm.file_info id) with
    | error e =>
      rw [save_new_err fm fs path text id e hw] at h1
      exact ⟨info1, h1, hd⟩
    | ok u =>
      cases u
      rw [save_new_ok fm fs path text id hw] at h1
      refine dirty_of_upd (fun i hi => ?_) id1 info1 h1 hd
      injection hi with h2
      subst h2
      rfl
  | some info0 =>
    rw [save_tracked fm fs path text id info0 hfi] at h1
    by_cases hne : info0.path ≠ path
    · cases hw : fs.try_save path text CharacterEncoding.Utf8 (some info0) with
      | error e =>
        rw [save_existing_as_err fm fs path text id info0 e hfi hne hw] at h1
        exact ⟨info1, h1, hd⟩
      | ok u =>
        cases u
        rw [save_existing_as_ok fm fs path text id info0 hfi hne hw] at h1
        refine dirty_of_upd (fun i hi => ?_) id1 info1 h1 hd
        injection hi with h2
        subst h2
        rfl
    · push_neg at hne
      cases hdirty : info0.has_changed with
      | true =>
        rw [save_existing_dirty fm fs path text id info0 hfi hne hdirty] at h1
        exact ⟨info1, h1, hd⟩
      | false =>
        cases hw : fs.try_save path text info0.encoding (some info0) with
        | error e =>
          rw [save_existing_clean_err fm fs path text id info0 e hfi hne hdirty hw] at h1
          exact ⟨info1, h1, hd⟩
        | ok u =>
          cases u
          rw [save_existing_clean_ok fm fs path text id info0 hfi hne hdirty hw] at h1
          refine dirty_of_upd (fun i hi => ?_) id1 info1 h1 hd
          injection hi with h2
          subst h2
          exact hdirty

/-- Every success branch of `save` leaves the saved identifier with
metadata whose `modified_time` is the oracle's mtime for the target path
and whose `has_changed` flag is false. -/
theorem save_ok_file_info (fs : FS) (fm : FileManager) (path : FilePath) (text : String)
    (id : FileId) (hok : (fm.save fs path text id).1 = Except.ok ()) :
    ∃ info1, (fm.save fs path text id).2.1.file_info id = some info1 ∧
      info1.modified_time = fs.get_modified_time path ∧ info1.has_changed = false := by
  cases hfi : fm.file_info id with
  | none =>
    rw [save_untracked fm fs path text id hfi] at hok ⊢
    cases hw : fs.try_save path text CharacterEncoding.Utf8 (fm.file_info id) with
    | error e =>
      rw [save_new_err fm fs path text id e hw] at hok
      simp at hok
    | ok u =>
      cases u
      rw [save_new_ok fm fs path text id hw]
      exact ⟨freshInfo fs path, by simp [upd], rfl, rfl⟩
  | some info0 =>
    rw [save_tracked fm fs path text id info0 hfi] at hok ⊢
    by_cases hne : info0.path ≠ path
    · cases hw : fs.try_save path text CharacterEncoding.Utf8 (some info0) with
      | error e =>
        rw [save_existing_as_err fm fs path text id info0 e hfi hne hw] at hok
        simp at hok
      | ok u =>
        cases u
        rw [save_existing_as_ok fm fs path text id info0 hfi hne hw]
        exact ⟨freshInfo fs path, by simp [upd], rfl, rfl⟩
    · push_neg at hne
      cases hdirty : info0.has_changed with
      | true =>
        rw [save_existing_dirty fm fs path text id info0 hfi hne hdirty] at hok
        simp at hok
      | false =>
        cases hw : fs.try_save path text info0.encoding (some info0) with
        | error e =>
          rw [save_existing_clean_err fm fs path text id info0 e hfi hne hdirty hw] at hok
          simp at hok
        | ok u =>
          cases u
          rw [save_existing_clean_ok fm fs path text id info0 hfi hne hdirty hw]
          exact ⟨{ info0 with modified_time := fs.get_modified_time path }, by simp [upd],
                 rfl, hdirty⟩

/-- C5: `check_file` compares the oracle's mtime for the argument path
with the recorded `modified_time` of the identifier's metadata: on
mismatch it sets `has_changed` and returns true; for an unknown
identifier it returns false with no state change; once `has_changed` is
true every check returns true and the stored flag stays true; and
assuming a well-formed load primitive, no operation among `open`,
`save`, `close` ever turns `has_changed` from false to true. -/
theorem c5_check_file_semantics (fs : FS) (fm : FileManager) (path : FilePath) (id : FileId) :
    (∀ info, fm.file_info id = some info →
        fs.get_modified_time path ≠ info.modified_time →
        fm.check_file fs path id =
          (true, { fm with file_info := upd fm.file_info id (some { info with has_changed := true }) })) ∧
    (fm.file_info id = none → fm.check_file fs path id = (false, fm)) ∧
    (∀ info, fm.file_info id = some info → info.has_changed = true →
        (fm.check_file fs path id).1 = true ∧
        ∃ info1, (fm.check_file fs path id).2.file_info id = some info1 ∧
          info1.has_changed = true) ∧
    (LoadWF fs → ∀ pO idO id1 info1,
        (fm.«open» fs pO idO).2.file_info id1 = some info1 → info1.has_changed = true →
        ∃ info0, fm.file_info id1 = some info0 ∧ info0.has_changed = true) ∧
    (∀ pS text idS id1 info1,
        (fm.save fs pS text idS).2.1.file_info id1 = some info1 → info1.has_changed = true →
        ∃ info0, fm.file_info id1 = some info0 ∧ info0.has_changed = true) ∧
    (∀ idC id1 info1,
        (fm.close idC).file_info id1 = some info1 → info1.has_changed = true →
        ∃ info0, fm.file_info id1 = some info0 ∧ info0.has_changed = true) := by
  refine ⟨?_, check_none fm fs path id, ?_, ?_, ?_, ?_⟩
  · intro info h hne
    exact check_diff fm fs path id info h hne
  · intro info h hd
    by_cases hmt : fs.get_modified_time path ≠ info.modified_time
    · rw [check_diff fm fs path id info h hmt]
      exact ⟨rfl, { info with has_changed := true }, by simp [upd], rfl⟩
    · push_neg at hmt
      rw [check_same fm fs path id info h hmt]
      exact ⟨hd, info, h, hd⟩
  · intro hwf pO idO
    exact open_no_new_dirty fs fm pO idO hwf
  · intro pS text idS
    exact save_no_new_dirty fs fm pS text idS
  · intro idC
    exact close_no_new_dirty fm idC

theorem c5_witness :
    ((fmDirty.check_file fs0 "p" "a").1 = true ∧
     ∃ info1, (fmDirty.check_file fs0 "p" "a").2.file_info "a" = some info1 ∧
       info1.has_changed = true) :=
  (c5_check_file_semantics fs0 fmDirty "p" "a").2.2.1 infoDirty (by decide) (by decide)

/-- C6: a successful `save(path, text, id)` followed by a `check` for
the same path and identifier returns false, provided the mtime of the
path observed at the check equals the one observed right after the
write: `save` leaves `has_changed = false` and `modified_time` equal to
the post-write mtime. -/
theorem c6_save_then_check_clean (fs fs1 : FS) (fm : FileManager) (path : FilePath)
    (text : String) (id : FileId)
    (hok : (fm.save fs path text id).1 = Except.ok ())
    (hmt : fs1.get_modified_time path = fs.get_modified_time path) :
    ((fm.save fs path text id).2.1.check_file fs1 path id).1 = false := by
  obtain ⟨info1, hfi, hmt1, hhc⟩ := save_ok_file_info fs fm path text id hok
  rw [check_same _ fs1 path id info1 hfi (by rw [hmt, hmt1])]
  exact hhc

theorem c6_witness :
    ((FileManager.empty.save fs0 "p" "t" "a").2.1.check_file fs0 "p" "a").1 = false :=
  c6_save_then_check_clean fs0 fs0 FileManager.empty "p" "t" "a" rfl rfl


/-! ### Registry invariant: preservation lemmas -/

theorem inv_empty : Inv FileManager.empty := by
  constructor
  · intro id info h
    simp [FileManager.empty] at h
  · intro p id h
    simp [FileManager.empty] at h

theorem inv_close (fm : FileManager) (id : FileId) (hInv : Inv fm) : Inv (fm.close id) := by
  cases hfi : fm.file_info id with
  | none => rw [close_none fm id hfi]; exact hInv
  | some info0 =>
    obtain ⟨h1, h2⟩ := hInv
    rw [close_some fm id info0 hfi]
    constructor
    · intro id1 info1 hfi1
      have hf : upd fm.file_info id none id1 = some info1 := hfi1
      have hid : id1 ≠ id := by
        intro he
        subst he
        rw [upd_same] at hf
        exact absurd hf (by simp)
      rw [upd_ne _ _ _ _ hid] at hf
      have hb := h1 id1 info1 hf
      have hp : info1.path ≠ info0.path := by
        intro he
        have hc := h1 id info0 hfi
        rw [he] at hb
        rw [hb] at hc
        injection hc with h4
        exact hid h4
      show upd fm.open_files info0.path none info1.path = some id1
      rw [upd_ne _ _ _ _ hp]
      exact hb
    · intro p1 id1 hp1
      have hpf : upd fm.open_files info0.path none p1 = some id1 := hp1
      have hpne : p1 ≠ info0.path := by
        intro he
        subst he
        rw [upd_same] at hpf
        exact absurd hpf (by simp)
      rw [upd_ne _ _ _ _ hpne] at hpf
      obtain ⟨info1, hi1, hip1⟩ := h2 p1 id1 hpf
      have hid : id1 ≠ id := by
        intro he
        subst he
        rw [hfi] at hi1
        injection hi1 with h3
        subst h3
        exact hpne hip1.symm
      refine ⟨info1, ?_, hip1⟩
      show upd fm.file_info id none id1 = some info1
      rw [upd_ne _ _ _ _ hid]
      exact hi1

theorem inv_check (fs : FS) (fm : FileManager) (path : FilePath) (id : FileId)
    (hInv : Inv fm) : Inv (fm.check_file fs path id).2 := by
  cases hfi : fm.file_info id with
  | none => rw [check_none fm fs path id hfi]; exact hInv
  | some info =>
    by_cases hmt : fs.get_modified_time path ≠ info.modified_time
    · rw [check_diff fm fs path id info hfi hmt]
      obtain ⟨h1, h2⟩ := hInv
      constructor
      · intro id1 info1 hfi1
        have hf : upd fm.file_info id (some { info with has_changed := true }) id1 =
            some info1 := hfi1
        show fm.open_files info1.path = some id1
        by_cases hid : id1 = id
        · subst hid
          rw [upd_same] at hf
          injection hf with h3
          subst h3
          exact h1 id1 info hfi
        · rw [upd_ne _ _ _ _ hid] at hf
          exact h1 id1 info1 hf
      · intro p1 id1 hp1
        have hpf : fm.open_files p1 = some id1 := hp1
        obtain ⟨info1, hi1, hip1⟩ := h2 p1 id1 hpf
        by_cases hid : id1 = id
        · subst hid
          rw [hfi] at hi1
          injection hi1 with h3
          subst h3
          refine ⟨{ info with has_changed := true }, ?_, hip1⟩
          show upd fm.file_info id1 (some { info with has_changed := true }) id1 =
            some { info with has_changed := true }
          rw [upd_same]
        · refine ⟨info1, ?_, hip1⟩
          show upd fm.file_info id (some { info with has_changed := true }) id1 = some info1
          rw [upd_ne _ _ _ _ hid]
          exact hi1
    · push_neg at hmt
      rw [check_same fm fs path id info hfi hmt]
      exact hInv

/-- Inserting the pair `(path, id, info)` into both maps preserves the
invariant, provided `path` is not mapped to a different identifier,
`id`'s metadata (if any) already records `path`, and `info` records
`path`. -/
theorem inv_insert (fm : FileManager) (path : FilePath) (id : FileId) (info : FileInfo)
    (hInv : Inv fm)
    (honly : ∀ id0, fm.open_files path = some id0 → id0 = id)
    (htracked : ∀ info0, fm.file_info id = some info0 → info0.path = path)
    (hip : info.path = path) :
    Inv { open_files := upd fm.open_files path (some id),
          file_info := upd fm.file_info id (some info) } := by
  obtain ⟨h1, h2⟩ := hInv
  constructor
  · intro id1 info1 hfi1
    have hf : upd fm.file_info id (some info) id1 = some info1 := hfi1
    show upd fm.open_files path (some id) info1.path = some id1
    by_cases hid : id1 = id
    · subst hid
      rw [upd_same] at hf
      injection hf with h3
      subst h3
      rw [hip, upd_same]
    · rw [upd_ne _ _ _ _ hid] at hf
      have hb := h1 id1 info1 hf
      have hpne : info1.path ≠ path := by
        intro he
        exact hid (honly id1 (by rw [← he]; exact hb))
      rw [upd_ne _ _ _ _ hpne]
      exact hb
  · intro p1 id1 hp1
    have hpf : upd fm.open_files path (some id) p1 = some id1 := hp1
    by_cases hpp : p1 = path
    · subst hpp
      rw [upd_same] at hpf
      injection hpf with h3
      subst h3
      refine ⟨info, ?_, hip⟩
      show upd fm.file_info id (some info) id = some info
      rw [upd_same]
    · rw [upd_ne _ _ _ _ hpp] at hpf
      obtain ⟨info1, hi1, hip1⟩ := h2 p1 id1 hpf
      have hid : id1 ≠ id := by
        intro he
        subst he
        exact hpp (hip1.symm.trans (htracked info1 hi1))
      refine ⟨info1, ?_, hip1⟩
      show upd fm.file_info id (some info) id1 = some info1
      rw [upd_ne _ _ _ _ hid]
      exact hi1

/-- The save-as success state (insert the new pair, then drop the old
path entry) preserves the invariant. -/
theorem inv_saveas (fm : FileManager) (path : FilePath) (id : FileId)
    (info0 infoN : FileInfo) (hInv : Inv fm)
    (honly : ∀ id0, fm.open_files path = some id0 → id0 = id)
    (hfi : fm.file_info id = some info0) (hne : info0.path ≠ path)
    (hip : infoN.path = path) :
    Inv { open_files := upd (upd fm.open_files path (some id)) info0.path none,
          file_info := upd fm.file_info id (some infoN) } := by
  obtain ⟨h1, h2⟩ := hInv
  constructor
  · intro id1 info1 hfi1
    have hf : upd fm.file_info id (some infoN) id1 = some info1 := hfi1
    show upd (upd fm.open_files path (some id)) info0.path none info1.path = some id1
    by_cases hid : id1 = id
    · subst hid
      rw [upd_same] at hf
      injection hf with h3
      subst h3
      rw [hip, upd_ne _ _ _ _ (Ne.symm hne), upd_same]
    · rw [upd_ne _ _ _ _ hid] at hf
      have hb := h1 id1 info1 hf
      have hpne0 : info1.path ≠ info0.path := by
        intro he
        have hc := h1 id info0 hfi
        rw [he] at hb
        rw [hb] at hc
        injection hc with h4
        exact hid h4
      have hpneP : info1.path ≠ path := by
        intro he
        exact hid (honly id1 (by rw [← he]; exact hb))
      rw [upd_ne _ _ _ _ hpne0, upd_ne _ _ _ _ hpneP]
      exact hb
  · intro p1 id1 hp1
    have hpf : upd (upd fm.open_files path (some id)) info0.path none p1 = some id1 := hp1
    by_cases hp0 : p1 = info0.path
    · subst hp0
      rw [upd_same] at hpf
      exact absurd hpf (by simp)
    · rw [upd_ne _ _ _ _ hp0] at hpf
      by_cases hpp : p1 = path
      · subst hpp
        rw [upd_same] at hpf
        injection hpf with h3
        subst h3
        refine ⟨infoN, ?_, hip⟩
        show upd fm.file_info id (some infoN) id = some infoN
        rw [upd_same]
      · rw [upd_ne _ _ _ _ hpp] at hpf
        obtain ⟨info1, hi1, hip1⟩ := h2 p1 id1 hpf
        have hid : id1 ≠ id := by
          intro he
          subst he
          rw [hfi] at hi1
          injection hi1 with h3
          subst h3
          exact hp0 hip1.symm
        refine ⟨info1, ?_, hip1⟩
        show upd fm.file_info id (some infoN) id1 = some info1
        rw [upd_ne _ _ _ _ hid]
        exact hi1

theorem inv_save (fs : FS) (fm : FileManager) (path : FilePath) (text : String) (id : FileId)
    (hInv : Inv fm)
    (honly : ∀ id0, fm.open_files path = some id0 → id0 = id) :
    Inv (fm.save fs path text id).2.1 := by
  cases hfi : fm.file_info id with
  | none =>
    rw [save_untracked fm fs path text id hfi]
    cases hw : fs.try_save path text CharacterEncoding.Utf8 (fm.file_info id) with
    | error e => rw [save_new_err fm fs path text id e hw]; exact hInv
    | ok u =>
      cases u
      rw [save_new_ok fm fs path text id hw]
      exact inv_insert fm path id (freshInfo fs path) hInv honly
        (fun info0 h0 => by rw [hfi] at h0; exact absurd h0 (by simp)) rfl
  | some info0 =>
    rw [save_tracked fm fs path text id info0 hfi]
    by_cases hne : info0.path ≠ path
    · cases hw : fs.try_save path text CharacterEncoding.Utf8 (some info0) with
      | error e => rw [save_existing_as_err fm fs path text id info0 e hfi hne hw]; exact hInv
      | ok u =>
        cases u
        rw [save_existing_as_ok fm fs path text id info0 hfi hne hw]
        exact inv_saveas fm path id info0 (freshInfo fs path) ⟨hInv.1, hInv.2⟩ honly hfi hne rfl
    · push_neg at hne
      cases hdirty : info0.has_changed with
      | true => rw [save_existing_dirty fm fs path text id info0 hfi hne hdirty]; exact hInv
      | false =>
        cases hw : fs.try_save path text info0.encoding (some info0) with
        | error e =>
          rw [save_existing_clean_err fm fs path text id info0 e hfi hne hdirty hw]
          exact hInv
        | ok u =>
          cases u
          rw [save_existing_clean_ok fm fs path text id info0 hfi hne hdirty hw]
          obtain ⟨h1, h2⟩ := hInv
          constructor
          · intro id1 info1 hfi1
            have hf : upd fm.file_info id (some { info0 with modified_time := fs.get_modified_time path }) id1 = some info1 := hfi1
            show fm.open_files info1.path = some id1
            by_cases hid : id1 = id
            · rw [hid] at hf
              rw [upd_same] at hf
              injection hf with h3
              subst h3
              rw [hid]
              exact h1 id info0 hfi
            · rw [upd_ne _ _ _ _ hid] at hf
              exact h1 id1 info1 hf
          · intro p1 id1 hp1
            have hpf : fm.open_files p1 = some id1 := hp1
            obtain ⟨info1, hi1, hip1⟩ := h2 p1 id1 hpf
            by_cases hid : id1 = id
            · rw [hid] at hi1
              rw [hfi] at hi1
              injection hi1 with h3
              refine ⟨{ info0 with modified_time := fs.get_modified_time path }, ?_, ?_⟩
              · show upd fm.file_info id (some { info0 with modified_time := fs.get_modified_time path }) id1 = some { info0 with modified_time := fs.get_modified_time path }
                rw [hid, upd_same]
              · show info0.path = p1
                rw [h3]
                exact hip1
            · refine ⟨info1, ?_, hip1⟩
              show upd fm.file_info id (some { info0 with modified_time := fs.get_modified_time path }) id1 = some info1
              rw [upd_ne _ _ _ _ hid]
              exact hi1

theorem inv_open_op (fs : FS) (fm : FileManager) (path : FilePath) (id : FileId)
    (hwf : LoadWF fs) (hInv : Inv fm)
    (honly : ∀ id0, fm.open_files path = some id0 → id0 = id)
    (htracked : ∀ info0, fm.file_info id = some info0 → info0.path = path) :
    Inv (fm.«open» fs path id).2 := by
  cases hex : fs.pathExists path with
  | false => rw [open_not_exists fm fs path id hex]; exact hInv
  | true =>
    cases hl : fs.try_load_file path with
    | error e => rw [open_load_err fm fs path id e hex hl]; exact hInv
    | ok pr =>
      obtain ⟨s, info⟩ := pr
      rw [open_load_ok fm fs path id s info hex hl]
      exact inv_insert fm path id info hInv honly htracked (hwf path s info hl).1

/-- C2 counterexample: the invariant is NOT preserved by every public
operation.  Starting from the consistent state that tracks identifier
`a` at path `p` (reachable by one `open` from the empty manager), the
invariant is broken by: `open` of the tracked identifier `a` at the
different path `q` (stale `p` entry), `open` of a different identifier
`b` at the occupied path `p`, and `save` of a different identifier `b`
at the occupied path `p`. -/
theorem c2_counterexample :
    Inv ((FileManager.empty.«open» fs0 "p" "a").2) ∧
    ¬ Inv (((FileManager.empty.«open» fs0 "p" "a").2.«open» fs0 "q" "a").2) ∧
    ¬ Inv (((FileManager.empty.«open» fs0 "p" "a").2.«open» fs0 "p" "b").2) ∧
    ¬ Inv (((FileManager.empty.«open» fs0 "p" "a").2.save fs0 "p" "t" "b").2.1) := by
  refine ⟨?_, ?_, ?_, ?_⟩
  · show Inv fmClean
    constructor
    · intro id info h
      have h' : upd FileManager.empty.file_info "a" (some infoClean) id = some info := h
      by_cases hid : id = "a"
      · rw [hid] at h'
        rw [upd_same] at h'
        injection h' with h3
        subst h3
        rw [hid]
        decide
      · rw [upd_ne _ _ _ _ hid] at h'
        exact absurd h' (by simp [FileManager.empty])
    · intro p idx h
      have h' : upd FileManager.empty.open_files "p" (some "a") p = some idx := h
      by_cases hp : p = "p"
      · rw [hp] at h'
        rw [upd_same] at h'
        injection h' with h3
        subst h3
        refine ⟨infoClean, by decide, by rw [hp]; rfl⟩
      · rw [upd_ne _ _ _ _ hp] at h'
        exact absurd h' (by simp [FileManager.empty])
  · intro hInv
    obtain ⟨info, hi, hp⟩ := hInv.2 "p" "a" (by decide)
    have hq : (((FileManager.empty.«open» fs0 "p" "a").2.«open» fs0 "q" "a").2).file_info "a" =
        some infoQ := by decide
    rw [hq] at hi
    injection hi with h3
    rw [← h3] at hp
    exact absurd hp (by decide)
  · intro hInv
    have hb := hInv.1 "a" infoClean (by decide)
    have hb2 : (((FileManager.empty.«open» fs0 "p" "a").2.«open» fs0 "p" "b").2).open_files
        infoClean.path = some "b" := by decide
    rw [hb2] at hb
    injection hb with h3
    exact absurd h3 (by decide)
  · intro hInv
    have hb := hInv.1 "a" infoClean (by decide)
    have hb2 : (((FileManager.empty.«open» fs0 "p" "a").2.save fs0 "p" "t" "b").2.1).open_files
        infoClean.path = some "b" := by decide
    rw [hb2] at hb
    injection hb with h3
    exact absurd h3 (by decide)

/-- C2 (amended): the registry invariant holds in the initial empty
state and is preserved by `close`, by `check_file`, by `save` whenever
the target path is not currently mapped to a different identifier, and
by `open` whenever the target path is not mapped to a different
identifier and the identifier, if already tracked, is opened at its
recorded path.  (As the counterexample shows, preservation fails for
`open` of a tracked identifier at a different path — a stale old-path
entry survives — and for `open`/`save` of a different identifier at an
already-occupied path.) -/
theorem c2_registry_invariant_amended (fs : FS) (hwf : LoadWF fs) :
    Inv FileManager.empty ∧
    (∀ fm id, Inv fm → Inv (fm.close id)) ∧
    (∀ fm path id, Inv fm → Inv (fm.check_file fs path id).2) ∧
    (∀ fm path text id, Inv fm →
        (∀ id0, fm.open_files path = some id0 → id0 = id) →
        Inv (fm.save fs path text id).2.1) ∧
    (∀ fm path id, Inv fm →
        (∀ id0, fm.open_files path = some id0 → id0 = id) →
        (∀ info0, fm.file_info id = some info0 → info0.path = path) →
        Inv (fm.«open» fs path id).2) :=
  ⟨inv_empty,
   fun fm id hInv => inv_close fm id hInv,
   fun fm path id hInv => inv_check fs fm path id hInv,
   fun fm path text id hInv honly => inv_save fs fm path text id hInv honly,
   fun fm path id hInv honly htracked => inv_open_op fs fm path id hwf hInv honly htracked⟩

theorem c2_witness : Inv FileManager.empty :=
  (c2_registry_invariant_amended fs0 fs0_loadWF).1

end AppFlowy
